import Mathlib

/-!
Shallow embedding of the evvl CLI core (src/src-tauri/src/lib.rs):
the document store, entity records, project/prompt auto-creation,
run resolution, export selection and display truncation, together with
theorems checking the natural-language specification against this code.

File-system and subprocess effects are made explicit: the store file is a
value threaded through the functions, the git detection result and piped
stdin are inputs, and the uuid / clock sources are parameters.  Writes
that the source performs with `save_to_store` are modelled as succeeding
(the source only warns on write failure and keeps the in-memory value).
-/

namespace Evvl

/-- A JSON value, modelling `serde_json::Value`. -/
inductive JVal where
  | null : JVal
  | bool (b : Bool) : JVal
  | num (n : Int) : JVal
  | str (s : String) : JVal
  | arr (items : List JVal) : JVal
  | obj (fields : List (String × JVal)) : JVal

/-- `struct Project` (lib.rs lines 19-34). -/
structure Project where
  id : String
  name : String
  description : Option String
  createdAt : Int
  updatedAt : Int
  promptIds : List String
  modelConfigIds : List String
  dataSetIds : List String

/-- `struct PromptVersion` (lib.rs lines 36-48). -/
structure PromptVersion where
  id : String
  versionNumber : Int
  content : String
  systemPrompt : Option String
  parameters : Option JVal
  note : Option String
  createdAt : Int

/-- `struct Prompt` (lib.rs lines 50-64). -/
structure Prompt where
  id : String
  projectId : String
  name : String
  description : Option String
  versions : List PromptVersion
  currentVersionId : String
  createdAt : Int
  updatedAt : Int

/-- `struct ProjectModelConfig` (lib.rs lines 66-77). -/
structure ProjectModelConfig where
  id : String
  projectId : String
  name : String
  provider : String
  model : String
  parameters : Option JVal
  createdAt : Int

/-- `struct DataSetItem` (lib.rs lines 79-84). -/
structure DataSetItem where
  id : String
  name : Option String
  «variables» : List (String × String)

/-- `struct DataSet` (lib.rs lines 86-97). -/
structure DataSet where
  id : String
  projectId : String
  name : String
  items : List DataSetItem
  createdAt : Int
  updatedAt : Int

/-- `struct EvaluationRun` (lib.rs lines 99-118). -/
structure EvaluationRun where
  id : String
  projectId : String
  promptId : String
  promptVersionId : String
  modelConfigIds : List String
  dataSetId : Option String
  results : List JVal
  status : String
  createdAt : Int
  completedAt : Option Int

/-! ## Document store (lib.rs lines 174-218)

The backing file `~/.evvl/store.json` is modelled as a `StoreFile`: the
file may be absent, the read may fail, the contents may fail to parse as
a JSON object, or it holds a key to value mapping (an association list,
first binding wins, as a parsed JSON object). -/

/-- State of the single on-disk store file. -/
inductive StoreFile where
  | absent : StoreFile
  | readError : StoreFile
  | malformed (raw : String) : StoreFile
  | valid (entries : List (String × JVal)) : StoreFile

/-- Lookup of a key in the parsed mapping (`store.get(key)`). -/
def lookupEntry (key : String) : List (String × JVal) → Option JVal
  | [] => none
  | (k, v) :: rest => if k == key then some v else lookupEntry key rest

/-- `store.insert(key, value)` on the mapping: overwrite the binding of
`key`, keep every other binding as found. -/
def insertEntry (key : String) (v : JVal) : List (String × JVal) → List (String × JVal)
  | [] => [(key, v)]
  | (k, w) :: rest =>
    if k == key then (key, v) :: rest else (k, w) :: insertEntry key v rest

/-- `load_from_store` (lib.rs lines 181-191): returns `none` when the file
is absent, the read fails, the whole-file parse fails, the key is absent,
or deserialization of the key's value (`decode`) fails. -/
def load_from_store {T : Type} (decode : JVal → Option T) (key : String) :
    StoreFile → Option T
  | .absent => none
  | .readError => none
  | .malformed _ => none
  | .valid entries =>
    match lookupEntry key entries with
    | none => none
    | some v => decode v

/-- `save_to_store` (lib.rs lines 193-218): read-modify-write of the whole
file.  A failing read of an existing file is an error; an existing file
that fails to parse is replaced by the empty mapping (`unwrap_or_default`);
otherwise only the targeted key is overwritten. -/
def save_to_store {T : Type} (encode : T → JVal) (key : String) (v : T) :
    StoreFile → Except String StoreFile
  | .absent => .ok (.valid (insertEntry key (encode v) []))
  | .readError => .error "io error"
  | .malformed _ => .ok (.valid (insertEntry key (encode v) []))
  | .valid entries => .ok (.valid (insertEntry key (encode v) entries))

/-! ## Display truncation (lib.rs lines 801-807)

Rust strings are UTF-8 byte sequences; `truncate_string` compares byte
lengths and byte-slices at `max_len - 3`.  A Rust string is modelled as
its list of characters, byte positions through `Char.utf8Size`, and the
two panics of the source (usize underflow when `max_len < 3` and the
slice `&s[..k]` landing off a character boundary) as `none`. -/

/-- `s.len()`: length of a Rust string in UTF-8 bytes. -/
def rustByteLen (s : List Char) : Nat :=
  match s with
  | [] => 0
  | c :: cs => c.utf8Size + rustByteLen cs

/-- `&s[..k]`: the prefix of `s` occupying exactly `k` bytes, or `none`
(a panic) when `k` is not a character boundary or exceeds the length. -/
def byteSlice : List Char → Nat → Option (List Char)
  | _, 0 => some []
  | [], _ + 1 => none
  | c :: cs, k + 1 =>
    if c.utf8Size ≤ k + 1 then
      (byteSlice cs (k + 1 - c.utf8Size)).map (fun t => c :: t)
    else
      none

/-- `truncate_string` (lib.rs lines 801-807).  `none` models a panic:
`max_len - 3` underflows for `max_len < 3` (debug overflow panic, or a
wrapped out-of-range slice in release), and the byte slice panics when
`max_len - 3` is not a character boundary of `s`. -/
def truncate_string (s : List Char) (maxLen : Nat) : Option (List Char) :=
  if rustByteLen s ≤ maxLen then
    some s
  else if maxLen < 3 then
    none
  else
    (byteSlice s (maxLen - 3)).map (fun t => t ++ ['.', '.', '.'])

/-! ## String primitives

Rust's `to_lowercase`, `trim` and `split` are modelled at the level of
the string's character list (Lean's library versions are equivalent but
defined by well-founded recursion on byte positions, which blocks
definitional evaluation inside proofs). -/

/-- Rust `s.to_lowercase()`: lowercase every character. -/
def toLowerStr (s : String) : String :=
  ⟨s.data.map Char.toLower⟩

/-- Rust `s.trim()`: strip leading and trailing whitespace. -/
def trimStr (s : String) : String :=
  ⟨(((s.data.dropWhile Char.isWhitespace).reverse).dropWhile
      Char.isWhitespace).reverse⟩

/-- Split a character list at every occurrence of `sep`, keeping empty
segments (the semantics of Rust `split`). -/
def splitOnChar (sep : Char) : List Char → List (List Char)
  | [] => [[]]
  | c :: cs =>
    match splitOnChar sep cs with
    | [] => if c == sep then [[], []] else [[c]]
    | g :: gs => if c == sep then [] :: g :: gs else (c :: g) :: gs

/-- `m.split(",").map(|s| s.trim().to_string())` (lib.rs line 714). -/
def splitCommaTrim (m : String) : List String :=
  (splitOnChar ',' m.data).map (fun g => trimStr ⟨g⟩)

/-! ## Run resolution state

`handle_run_command` reads the four typed collections from the store and
writes back the prompts / projects / pending-runs collections it changes.
The typed view of the store that this invocation sees is a `Store`;
threading it through the resolution functions models the loads and saves
(lib.rs lines 553-555, 586, 625, and the `save_to_store` calls). -/

/-- The assembled run configuration (the `json!` record, lib.rs 758-770). -/
structure RunConfig where
  source : String
  prompt : String
  models : List String
  dataset : Option String
  promptId : Option String
  promptVersionId : Option String
  projectId : Option String
  projectName : Option String
  openGui : Bool
  status : String
  savedVersion : Bool

/-- Typed view of the collections used by the CLI handlers. -/
structure Store where
  projects : List Project
  prompts : List Prompt
  modelConfigs : List ProjectModelConfig
  dataSets : List DataSet
  pendingRuns : List RunConfig

/-- Replace the first element satisfying `cond` by its image under `f`
(`iter_mut().find` followed by a mutation in the source); every other
element is kept as found. -/
def updateFirst {α : Type} (cond : α → Bool) (f : α → α) : List α → List α
  | [] => []
  | x :: xs => if cond x then f x :: xs else x :: updateFirst cond f xs

/-- `get_or_create_repo_project` (lib.rs lines 247-279): find a project by
case-insensitive name, else create one named after the repo.  The uuid and
clock are the `pid` / `now` parameters; the save is modelled as
succeeding. -/
def get_or_create_repo_project (repoName : String) (now : Int) (pid : String)
    (projects : List Project) : Project × List Project :=
  match projects.find? (fun p => toLowerStr p.name == toLowerStr repoName) with
  | some existing => (existing, projects)
  | none =>
    let project : Project :=
      { id := pid
        name := repoName
        description := some ("Auto-created from git repo: " ++ repoName)
        createdAt := now
        updatedAt := now
        promptIds := []
        modelConfigIds := []
        dataSetIds := [] }
    (project, projects ++ [project])

/-- The seed version of an auto-created default prompt
(lib.rs lines 300-308). -/
def seedVersion (versionId : String) (now : Int) : PromptVersion :=
  { id := versionId
    versionNumber := 1
    content := ""
    systemPrompt := none
    parameters := none
    note := some "Initial version"
    createdAt := now }

/-- `get_or_create_default_prompt` (lib.rs lines 282-337): if the project
owns any prompt at all (matched by `project_id` only), return the first
one unchanged; otherwise create a default prompt named after the project
with one seed version, append its id to the project's prompt-id list, and
patch the stored project (first match by id) with the new list and
timestamp.  Returns the prompt, the updated local project, and the
updated prompt / project collections. -/
def get_or_create_default_prompt (project : Project) (now : Int)
    (promptId versionId : String) (prompts : List Prompt)
    (projects : List Project) :
    Prompt × Project × List Prompt × List Project :=
  match prompts.find? (fun p => p.projectId == project.id) with
  | some existing => (existing, project, prompts, projects)
  | none =>
    let prompt : Prompt :=
      { id := promptId
        projectId := project.id
        name := project.name
        description := some ("Prompt for " ++ project.name ++ " CLI evaluations")
        versions := [seedVersion versionId now]
        currentVersionId := versionId
        createdAt := now
        updatedAt := now }
    let project' := { project with promptIds := project.promptIds ++ [promptId] }
    let projects' := updateFirst (fun p => p.id == project.id)
      (fun p => { p with promptIds := project'.promptIds, updatedAt := now })
      projects
    (prompt, project', prompts ++ [prompt], projects')

/-! ## Run resolution steps (lib.rs lines 542-799) -/

/-- The stderr line for a missing explicit project (lib.rs line 564). -/
def projectNotFoundMsg (filter : String) : String :=
  "Error: Project \x27" ++ filter ++ "\x27 not found"

/-- The stderr line for a prompt name that resolves to nothing
(lib.rs line 701). -/
def promptNotFoundMsg (name : String) : String :=
  "Error: Prompt \x27" ++ name ++ "\x27 not found"

/-- The stderr line for a dangling current-version pointer
(lib.rs line 695). -/
def corruptPromptMsg (name : String) : String :=
  "Error: No current version found for prompt \x27" ++ name ++ "\x27"

/-- The stderr line when no prompt at all was provided (lib.rs line 708). -/
def noPromptMsg : String :=
  "Error: No prompt provided. Use --prompt, --prompt-name, or pipe text to stdin."

/-- Project resolution (lib.rs lines 557-573): an explicit filter is
looked up by id or case-insensitive name and its absence is an error;
otherwise a git-detected repo name finds or creates a project; otherwise
the run is anonymous. -/
def resolveProject (projectFilter detected : Option String) (now : Int)
    (pid : String) (st : Store) : Except String (Option Project × Store) :=
  match projectFilter with
  | some filter =>
    match st.projects.find? (fun p =>
        p.id == filter || toLowerStr p.name == toLowerStr filter) with
    | some p => .ok (some p, st)
    | none => .error (projectNotFoundMsg filter)
  | none =>
    match detected with
    | some repoName =>
      let r := get_or_create_repo_project repoName now pid st.projects
      .ok (some r.1, { st with projects := r.2 })
    | none => .ok (none, st)

/-- Effective prompt name (lib.rs lines 576-583): an explicit
`--prompt-name` wins, else a resolved project's own name, else none. -/
def effectiveName (promptName : Option String) (project : Option Project) :
    Option String :=
  match promptName with
  | some n => some n
  | none =>
    match project with
    | some proj => some proj.name
    | none => none

/-- Raw prompt text (lib.rs lines 595-607): the explicit `--prompt` flag,
else the trimmed contents of a non-tty stdin when nonempty, else none.
`stdinPiped = none` models an interactive terminal. -/
def rawTextOf (promptText stdinPiped : Option String) : Option String :=
  match promptText with
  | some t => some t
  | none =>
    match stdinPiped with
    | some s => if (trimStr s).data.isEmpty then none else some (trimStr s)
    | none => none

/-- The scoped case-insensitive prompt-name match used both for the
existence check and the find (lib.rs lines 612-619 and 631-638). -/
def promptMatches (project : Option Project) (name : String) (p : Prompt) :
    Bool :=
  match project with
  | some proj => p.projectId == proj.id && toLowerStr p.name == toLowerStr name
  | none => toLowerStr p.name == toLowerStr name

/-- `versions.iter().map(version_number).max().unwrap_or(0)`
(lib.rs lines 653-656). -/
def maxVersionNumber (versions : List PromptVersion) : Int :=
  match versions with
  | [] => 0
  | v :: vs => max v.versionNumber (maxVersionNumber vs)

/-- The result of the name-based prompt step: final content, resolved
prompt and version ids, and whether a new version was saved. -/
structure PromptRes where
  finalPrompt : String
  promptId : Option String
  promptVersionId : Option String
  savedNewVersion : Bool

/-- The version appended when submitted text differs from the current
content (lib.rs lines 658-667). -/
def newVersionOf (newVersionId : String) (versionNumber : Int)
    (content : String) (versionNote : Option String) (now : Int) :
    PromptVersion :=
  { id := newVersionId
    versionNumber := versionNumber
    content := content
    systemPrompt := none
    parameters := none
    note := versionNote
    createdAt := now }

/-- The in-place mutation of the found prompt when a new version is saved
(lib.rs lines 669-671): append the version, make it current, bump
`updated_at`. -/
def bumpPrompt (nv : PromptVersion) (newVersionId : String) (now : Int)
    (p : Prompt) : Prompt :=
  { p with
    versions := p.versions ++ [nv]
    currentVersionId := newVersionId
    updatedAt := now }

/-- Name-based prompt resolution (lib.rs lines 610-704): check existence
of a scoped case-insensitive name match; when absent and a project is
resolved, run `get_or_create_default_prompt`; then find the prompt, find
its current version, and either append a new version (submitted text
differing from the current content), or reuse the current version.
Returns the step outcome together with the possibly-updated local project
and store (writes performed before a failure are kept, as in the
source). -/
def resolveNamedPrompt (name : String) (raw versionNote : Option String)
    (now : Int) (defPromptId defVersionId newVersionId : String)
    (project : Option Project) (st : Store) :
    Except String PromptRes × Option Project × Store :=
  let promptExists := st.prompts.any (promptMatches project name)
  let created :=
    if !promptExists then
      match project with
      | some proj =>
        let r := get_or_create_default_prompt proj now defPromptId
          defVersionId st.prompts st.projects
        (some r.2.1, { st with prompts := r.2.2.1, projects := r.2.2.2 })
      | none => (project, st)
    else (project, st)
  let project := created.1
  let st := created.2
  match st.prompts.find? (promptMatches project name) with
  | none => (.error (promptNotFoundMsg name), project, st)
  | some p =>
    match p.versions.find? (fun v => v.id == p.currentVersionId) with
    | none => (.error (corruptPromptMsg name), project, st)
    | some cv =>
      match raw with
      | some newContent =>
        if newContent ≠ cv.content then
          let nv := newVersionOf newVersionId (maxVersionNumber p.versions + 1)
            newContent versionNote now
          let prompts' := updateFirst (promptMatches project name)
            (bumpPrompt nv newVersionId now) st.prompts
          (.ok { finalPrompt := newContent
                 promptId := some p.id
                 promptVersionId := some newVersionId
                 savedNewVersion := true },
           project, { st with prompts := prompts' })
        else
          (.ok { finalPrompt := cv.content
                 promptId := some p.id
                 promptVersionId := some cv.id
                 savedNewVersion := false },
           project, st)
      | none =>
        (.ok { finalPrompt := cv.content
               promptId := some p.id
               promptVersionId := some cv.id
               savedNewVersion := false },
         project, st)

/-- The built-in default model pair (lib.rs lines 726 and 731). -/
def defaultModels : List String :=
  ["anthropic/claude-3-5-sonnet", "openai/gpt-4"]

/-- Model-list resolution (lib.rs lines 713-732): an explicit
comma-separated flag wins (trimmed per entry); else a resolved project's
model configs as `provider/model`, falling back to the default pair when
that set is empty; else the default pair. -/
def resolveModels (models : Option String) (project : Option Project)
    (modelConfigs : List ProjectModelConfig) : List String :=
  match models with
  | some m => splitCommaTrim m
  | none =>
    match project with
    | some proj =>
      let projectModels := (modelConfigs.filter
          (fun c => c.projectId == proj.id)).map
        (fun c => c.provider ++ "/" ++ c.model)
      if projectModels.isEmpty then defaultModels else projectModels
    | none => defaultModels

/-- The scoped case-insensitive dataset lookup (lib.rs lines 739-746). -/
def findDatasetByName (dsName : String) (project : Option Project)
    (dataSets : List DataSet) : Option DataSet :=
  match project with
  | some proj => dataSets.find? (fun d =>
      d.projectId == proj.id && toLowerStr d.name == toLowerStr dsName)
  | none => dataSets.find? (fun d => toLowerStr d.name == toLowerStr dsName)

/-- Dataset resolution (lib.rs lines 735-755): the `no-dataset` flag
yields none unconditionally; else an explicit name is looked up scoped to
the project (or globally) case-insensitively, a miss yielding none; else
a resolved project's first dataset in stored order; else none. -/
def resolveDataset (noDataset : Bool) (datasetName : Option String)
    (project : Option Project) (dataSets : List DataSet) : Option String :=
  if noDataset then
    none
  else
    match datasetName with
    | some dsName =>
      (findDatasetByName dsName project dataSets).map (fun d => d.name)
    | none =>
      match project with
      | some proj =>
        (dataSets.find? (fun d => d.projectId == proj.id)).map
          (fun d => d.name)
      | none => none

/-- The CLI inputs of the `run` subcommand. -/
structure RunInputs where
  promptText : Option String
  promptName : Option String
  versionNote : Option String
  models : Option String
  datasetName : Option String
  noDataset : Bool
  projectFilter : Option String
  openGui : Bool

/-- The process environment of one invocation: the git-detection result,
the piped stdin contents (`none` = interactive terminal), the clock, and
the uuids the invocation would draw. -/
structure Env where
  detectedRepo : Option String
  stdinPiped : Option String
  now : Int
  projId : String
  defPromptId : String
  defVersionId : String
  newVersionId : String

/-- The observable outcome of `handle_run_command`: exit code, assembled
config on success, stderr line on failure, and the final store state. -/
structure RunOutput where
  exitCode : Int
  config : Option RunConfig
  stderr : Option String
  store : Store

/-- Shared tail of `handle_run_command` (lib.rs lines 713-798): resolve
models and dataset, assemble the run configuration, and append it to the
pending-runs queue when `--open` was given. -/
def finishRun (inputs : RunInputs) (finalPrompt : String)
    (promptId promptVersionId : Option String) (saved : Bool)
    (project : Option Project) (modelConfigs : List ProjectModelConfig)
    (dataSets : List DataSet) (st : Store) : RunOutput :=
  let modelList := resolveModels inputs.models project modelConfigs
  let dataset := resolveDataset inputs.noDataset inputs.datasetName project
    dataSets
  let cfg : RunConfig :=
    { source := "cli"
      prompt := finalPrompt
      models := modelList
      dataset := dataset
      promptId := promptId
      promptVersionId := promptVersionId
      projectId := project.map (fun p => p.id)
      projectName := project.map (fun p => p.name)
      openGui := inputs.openGui
      status := "pending"
      savedVersion := saved }
  let st' :=
    if inputs.openGui then { st with pendingRuns := st.pendingRuns ++ [cfg] }
    else st
  { exitCode := 0, config := some cfg, stderr := none, store := st' }

/-- `handle_run_command` (lib.rs lines 542-799). -/
def handle_run_command (inputs : RunInputs) (env : Env) (st : Store) :
    RunOutput :=
  match resolveProject inputs.projectFilter env.detectedRepo env.now
      env.projId st with
  | .error msg => { exitCode := 1, config := none, stderr := some msg, store := st }
  | .ok (project, st1) =>
    let name? := effectiveName inputs.promptName project
    let raw := rawTextOf inputs.promptText env.stdinPiped
    match name? with
    | some name =>
      let r := resolveNamedPrompt name raw inputs.versionNote env.now
        env.defPromptId env.defVersionId env.newVersionId project st1
      match r.1 with
      | .error msg =>
        { exitCode := 1, config := none, stderr := some msg, store := r.2.2 }
      | .ok pr =>
        finishRun inputs pr.finalPrompt pr.promptId pr.promptVersionId
          pr.savedNewVersion r.2.1 st.modelConfigs st.dataSets r.2.2
    | none =>
      match raw with
      | some text =>
        finishRun inputs text none none false project st.modelConfigs
          st.dataSets st1
      | none =>
        { exitCode := 1, config := none, stderr := some noPromptMsg, store := st1 }

/-! ## Export selection (lib.rs lines 454-540) -/

/-- `filter(completed).max_by_key(created_at)` (lib.rs lines 464-467):
Rust `max_by_key` keeps the last of several equal maxima. -/
def maxByCreatedAt : List EvaluationRun → Option EvaluationRun
  | [] => none
  | r :: rs =>
    match maxByCreatedAt rs with
    | none => some r
    | some m => if m.createdAt ≥ r.createdAt then some m else some r

/-- The run the export command operates on: an explicit id by exact
match, else the most recent completed run. -/
def selectExportRun (runId : Option String) (runs : List EvaluationRun) :
    Option EvaluationRun :=
  match runId with
  | some id => runs.find? (fun r => r.id == id)
  | none => maxByCreatedAt (runs.filter (fun r => r.status == "completed"))

/-- `handle_export_command` reduced to its exit code and stderr line
(lib.rs lines 454-540): the body on a found run only prints and returns
0, the `None` arm distinguishes the two failure messages. -/
def handle_export_command (runId : Option String)
    (runs : List EvaluationRun) : Int × Option String :=
  match selectExportRun runId runs with
  | some _ => (0, none)
  | none =>
    match runId with
    | some _ => (1, some "Error: Run ID not found")
    | none => (1, some "Error: No evaluation runs found")

/-- Total number of stored prompt versions across a prompt collection;
used to express "exactly one new PromptVersion is created". -/
def totalVersions : List Prompt → Nat
  | [] => 0
  | p :: ps => p.versions.length + totalVersions ps

/-! ## Concrete fixtures used by witnesses and counterexamples -/

/-- The empty store (first run: backing file absent). -/
def emptyStore : Store :=
  { projects := [], prompts := [], modelConfigs := [], dataSets := [],
    pendingRuns := [] }

/-- Scenario A inputs: run text `"hello"`, everything else defaulted. -/
def scenarioAInputs : RunInputs :=
  { promptText := some "hello", promptName := none, versionNote := none,
    models := none, datasetName := none, noDataset := false,
    projectFilter := none, openGui := false }

/-- Scenario A environment: git detection yields `"myrepo"`, interactive
stdin, clock at 1000, and the uuids the invocation draws. -/
def scenarioAEnv : Env :=
  { detectedRepo := some "myrepo", stdinPiped := none, now := 1000,
    projId := "p1", defPromptId := "q1", defVersionId := "v1",
    newVersionId := "v2" }

/-- A project that owns one prompt whose name differs from the project's
own name. -/
def cxProject : Project :=
  { id := "p1", name := "proj", description := none, createdAt := 0,
    updatedAt := 0, promptIds := ["q9"], modelConfigIds := [],
    dataSetIds := [] }

/-- The project's only prompt, named `"other"`. -/
def cxPrompt : Prompt :=
  { id := "q9", projectId := "p1", name := "other", description := none,
    versions := [{ id := "v9", versionNumber := 1, content := "x",
                   systemPrompt := none, parameters := none, note := none,
                   createdAt := 0 }],
    currentVersionId := "v9", createdAt := 0, updatedAt := 0 }

/-- Store holding `cxProject` and `cxPrompt`. -/
def cxStore : Store :=
  { projects := [cxProject], prompts := [cxPrompt], modelConfigs := [],
    dataSets := [], pendingRuns := [] }

/-- Run inputs selecting `cxProject` explicitly, with run text and no
explicit prompt name (so the effective name is the project's name). -/
def cxInputs : RunInputs :=
  { promptText := some "hi", promptName := none, versionNote := none,
    models := none, datasetName := none, noDataset := false,
    projectFilter := some "p1", openGui := false }

/-- Environment for the counterexample run: no git repo, interactive
stdin. -/
def cxEnv : Env :=
  { detectedRepo := none, stdinPiped := none, now := 5, projId := "px",
    defPromptId := "qx", defVersionId := "vx", newVersionId := "nx" }

/-- A project that owns no prompts, for the amended-claim witness. -/
def w2Project : Project :=
  { id := "p7", name := "alpha", description := none, createdAt := 0,
    updatedAt := 0, promptIds := [], modelConfigIds := [],
    dataSetIds := [] }

/-- Store holding only `w2Project`. -/
def w2Store : Store :=
  { projects := [w2Project], prompts := [], modelConfigs := [],
    dataSets := [], pendingRuns := [] }

/-- Inputs selecting `w2Project` explicitly with no prompt text. -/
def w2Inputs : RunInputs :=
  { promptText := none, promptName := none, versionNote := none,
    models := none, datasetName := none, noDataset := false,
    projectFilter := some "p7", openGui := false }

/-- The single version (content `"old"`) of the version-bump witness's
prompt. -/
def w1Version : PromptVersion :=
  { id := "v1", versionNumber := 1, content := "old", systemPrompt := none,
    parameters := none, note := none, createdAt := 0 }

/-- An existing prompt named `"p"` with one version of content `"old"`,
for the version-bump witness. -/
def w1Prompt : Prompt :=
  { id := "q1", projectId := "", name := "p", description := none,
    versions := [w1Version], currentVersionId := "v1", createdAt := 0,
    updatedAt := 0 }

/-- Store holding only `w1Prompt`. -/
def w1Store : Store :=
  { projects := [], prompts := [w1Prompt], modelConfigs := [],
    dataSets := [], pendingRuns := [] }

/-- Inputs naming `"p"` explicitly and submitting text `"new"`. -/
def w1Inputs : RunInputs :=
  { promptText := some "new", promptName := some "p", versionNote := none,
    models := none, datasetName := none, noDataset := false,
    projectFilter := none, openGui := false }

/-- Environment for the version-bump witness: anonymous run. -/
def w1Env : Env :=
  { detectedRepo := none, stdinPiped := none, now := 77, projId := "px",
    defPromptId := "qx", defVersionId := "vx", newVersionId := "v2" }

/-- A completed evaluation run. -/
def wRunCompleted : EvaluationRun :=
  { id := "r1", projectId := "p1", promptId := "q1",
    promptVersionId := "v1", modelConfigIds := [], dataSetId := none,
    results := [], status := "completed", createdAt := 10,
    completedAt := some 11 }

/-- A pending evaluation run created later than `wRunCompleted`. -/
def wRunPending : EvaluationRun :=
  { id := "r2", projectId := "p1", promptId := "q1",
    promptVersionId := "v1", modelConfigIds := [], dataSetId := none,
    results := [], status := "pending", createdAt := 99,
    completedAt := none }

/-- Inputs for the no-dataset witness: run text `"x"`, an explicit
dataset name, and the `no-dataset` flag set. -/
def w8Inputs : RunInputs :=
  { promptText := some "x", promptName := none, versionNote := none,
    models := none, datasetName := some "d", noDataset := true,
    projectFilter := none, openGui := false }

/-- The configuration the no-dataset witness run assembles. -/
def w8Config : RunConfig :=
  { source := "cli", prompt := "x", models := defaultModels,
    dataset := none, promptId := none, promptVersionId := none,
    projectId := none, projectName := none, openGui := false,
    status := "pending", savedVersion := false }

/-! ## Helper lemmas -/

theorem find?_append_of_none {α : Type} (q : α → Bool) (l₁ l₂ : List α)
    (h : l₁.find? q = none) : (l₁ ++ l₂).find? q = l₂.find? q := by
  induction l₁ with
  | nil => simp
  | cons x xs ih =>
    cases hx : q x with
    | false =>
      simp only [List.find?_cons, hx] at h
      simpa [List.cons_append, List.find?_cons, hx] using ih h
    | true => simp [List.find?_cons, hx] at h

theorem updateFirst_append_of_none {α : Type} (q : α → Bool) (f : α → α)
    (l₁ l₂ : List α) (h : l₁.find? q = none) :
    updateFirst q f (l₁ ++ l₂) = l₁ ++ updateFirst q f l₂ := by
  induction l₁ with
  | nil => simp
  | cons x xs ih =>
    cases hx : q x with
    | false =>
      simp only [List.find?_cons, hx] at h
      simp only [List.cons_append, updateFirst, hx]
      simpa using ih h
    | true => simp [List.find?_cons, hx] at h

theorem any_of_find?_some {α : Type} {q : α → Bool} {l : List α} {x : α}
    (h : l.find? q = some x) : l.any q = true := by
  rcases List.any_eq_true.mpr ⟨x, List.mem_of_find?_eq_some h, List.find?_some h⟩ with h'
  exact h'

theorem find?_eq_none_of_forall {α : Type} {q : α → Bool} {l : List α}
    (h : ∀ x ∈ l, q x = false) : l.find? q = none := by
  apply List.find?_eq_none.mpr
  intro x hx
  simp [h x hx]

theorem totalVersions_append (l₁ l₂ : List Prompt) :
    totalVersions (l₁ ++ l₂) = totalVersions l₁ + totalVersions l₂ := by
  induction l₁ with
  | nil => simp [totalVersions]
  | cons p ps ih => simp [totalVersions, ih]; omega

theorem totalVersions_updateFirst {q : Prompt → Bool} {f : Prompt → Prompt}
    {l : List Prompt} {p : Prompt} (h : l.find? q = some p)
    (hf : ∀ y, (f y).versions.length = y.versions.length + 1) :
    totalVersions (updateFirst q f l) = totalVersions l + 1 := by
  induction l with
  | nil => simp [List.find?] at h
  | cons x xs ih =>
    rw [List.find?_cons] at h
    cases hx : q x with
    | true => simp [updateFirst, hx, totalVersions, hf x]; omega
    | false =>
      rw [hx] at h
      simp only [updateFirst, hx, Bool.false_eq_true, if_false, totalVersions]
      rw [ih h]
      omega

theorem lookupEntry_insertEntry_ne (k' key : String) (v : JVal)
    (entries : List (String × JVal)) (h : k' ≠ key) :
    lookupEntry k' (insertEntry key v entries) = lookupEntry k' entries := by
  induction entries with
  | nil =>
    simp only [insertEntry, lookupEntry]
    rw [if_neg]
    simp [Ne.symm h]
  | cons e rest ih =>
    obtain ⟨k, w⟩ := e
    simp only [insertEntry]
    cases hk : k == key with
    | true =>
      have hkeq : k = key := by simpa using hk
      simp only [if_true, lookupEntry]
      rw [if_neg, if_neg] <;> simp [hkeq, Ne.symm h]
    | false =>
      simp only [Bool.false_eq_true, if_false, lookupEntry]
      cases hk' : k == k' with
      | true => simp
      | false => simpa [hk'] using ih

theorem maxByCreatedAt_eq_none {l : List EvaluationRun}
    (h : maxByCreatedAt l = none) : l = [] := by
  cases l with
  | nil => rfl
  | cons r rs =>
    simp only [maxByCreatedAt] at h
    cases hm : maxByCreatedAt rs with
    | none => rw [hm] at h; simp at h
    | some m =>
      rw [hm] at h
      by_cases hc : m.createdAt ≥ r.createdAt <;> simp [hc] at h

theorem maxByCreatedAt_mem {l : List EvaluationRun} {r : EvaluationRun}
    (h : maxByCreatedAt l = some r) : r ∈ l := by
  induction l with
  | nil => simp [maxByCreatedAt] at h
  | cons x xs ih =>
    cases hm : maxByCreatedAt xs with
    | none =>
      simp only [maxByCreatedAt, hm, Option.some.injEq] at h
      simp [h]
    | some m =>
      simp only [maxByCreatedAt, hm] at h
      by_cases hc : m.createdAt ≥ x.createdAt
      · simp only [if_pos hc, Option.some.injEq] at h
        exact List.mem_cons_of_mem x (ih (hm.trans (by rw [h])))
      · simp only [if_neg hc, Option.some.injEq] at h
        simp [h]

theorem maxByCreatedAt_ge {l : List EvaluationRun} :
    ∀ {r : EvaluationRun}, maxByCreatedAt l = some r →
    ∀ x ∈ l, x.createdAt ≤ r.createdAt := by
  induction l with
  | nil => simp
  | cons y ys ih =>
    intro r h x hx
    cases hm : maxByCreatedAt ys with
    | none =>
      have hys : ys = [] := maxByCreatedAt_eq_none hm
      subst hys
      simp only [maxByCreatedAt, Option.some.injEq] at h
      simp only [List.mem_singleton] at hx
      subst h
      subst hx
      exact le_refl _
    | some m =>
      simp only [maxByCreatedAt, hm] at h
      by_cases hc : m.createdAt ≥ y.createdAt
      · simp only [if_pos hc, Option.some.injEq] at h
        subst h
        rcases List.mem_cons.mp hx with hx | hx
        · subst hx; exact hc
        · exact ih hm x hx
      · simp only [if_neg hc, Option.some.injEq] at h
        subst h
        rcases List.mem_cons.mp hx with hx | hx
        · subst hx; exact le_refl _
        · exact le_trans (ih hm x hx) (by omega)

theorem maxByCreatedAt_isSome {l : List EvaluationRun} (h : l ≠ []) :
    (maxByCreatedAt l).isSome = true := by
  cases hm : maxByCreatedAt l with
  | none => exact absurd (maxByCreatedAt_eq_none hm) h
  | some m => rfl

theorem finishRun_store_prompts (inputs : RunInputs) (fp : String)
    (pid pvid : Option String) (saved : Bool) (project : Option Project)
    (mcs : List ProjectModelConfig) (dss : List DataSet) (st : Store) :
    (finishRun inputs fp pid pvid saved project mcs dss st).store.prompts
      = st.prompts := by
  simp only [finishRun]
  by_cases h : inputs.openGui <;> simp [h]

theorem finishRun_store_projects (inputs : RunInputs) (fp : String)
    (pid pvid : Option String) (saved : Bool) (project : Option Project)
    (mcs : List ProjectModelConfig) (dss : List DataSet) (st : Store) :
    (finishRun inputs fp pid pvid saved project mcs dss st).store.projects
      = st.projects := by
  simp only [finishRun]
  by_cases h : inputs.openGui <;> simp [h]

theorem finishRun_config (inputs : RunInputs) (fp : String)
    (pid pvid : Option String) (saved : Bool) (project : Option Project)
    (mcs : List ProjectModelConfig) (dss : List DataSet) (st : Store) :
    (finishRun inputs fp pid pvid saved project mcs dss st).config.map
        (fun c => (c.savedVersion, c.prompt, c.promptVersionId))
      = some (saved, fp, pvid) := rfl

/-- When the resolved project owns no prompts and the effective name
lowercases to the project's name, the name-based prompt step creates the
default prompt: it is appended to the prompt collection, carries the
drawn prompt id, the project's id and name, and the seed version, the
project record is patched with the appended prompt id, and the step
returns `ok`. -/
theorem resolveNamedPrompt_creates
    (name : String) (raw versionNote : Option String) (now : Int)
    (dpid dvid nvid : String) (proj : Project) (st : Store)
    (hmatch : toLowerStr name = toLowerStr proj.name)
    (hnone : st.prompts.find? (fun p => p.projectId == proj.id) = none) :
    ∃ q pr,
      resolveNamedPrompt name raw versionNote now dpid dvid nvid (some proj) st
        = (.ok pr, some { proj with promptIds := proj.promptIds ++ [dpid] },
           { st with
             prompts := st.prompts ++ [q],
             projects := updateFirst (fun p => p.id == proj.id)
               (fun p =>
                 { p with
                   promptIds := proj.promptIds ++ [dpid],
                   updatedAt := now }) st.projects })
      ∧ q.id = dpid ∧ q.projectId = proj.id ∧ q.name = proj.name
      ∧ q.versions.head? = some (seedVersion dvid now) := by
  have hfalse : ∀ x ∈ st.prompts, promptMatches (some proj) name x = false := by
    intro x hx
    have := List.find?_eq_none.mp hnone x hx
    simp only [promptMatches]
    simp only [Bool.not_eq_true] at this
    simp [this]
  have hany : st.prompts.any (promptMatches (some proj) name) = false := by
    rw [List.any_eq_false]
    intro x hx
    simp [hfalse x hx]
  have hfalse' : ∀ x ∈ st.prompts,
      promptMatches (some { proj with promptIds := proj.promptIds ++ [dpid] })
        name x = false := by
    intro x hx
    have := hfalse x hx
    simpa [promptMatches] using this
  have hfind1 : st.prompts.find?
      (promptMatches (some { proj with promptIds := proj.promptIds ++ [dpid] })
        name) = none :=
    find?_eq_none_of_forall hfalse'
  have hqnew : ∀ q : Prompt, q.projectId = proj.id →
      toLowerStr q.name = toLowerStr name →
      promptMatches (some { proj with promptIds := proj.promptIds ++ [dpid] })
        name q = true := by
    intro q h1 h2
    simp [promptMatches, h1, h2]
  simp only [resolveNamedPrompt, hany, Bool.not_false, if_true,
    get_or_create_default_prompt, hnone]
  rw [find?_append_of_none _ _ _ hfind1]
  have hq := hqnew
    { id := dpid, projectId := proj.id, name := proj.name,
      description := some ("Prompt for " ++ proj.name ++ " CLI evaluations"),
      versions := [{ id := dvid, versionNumber := 1, content := "",
                     systemPrompt := none, parameters := none,
                     note := some "Initial version", createdAt := now }],
      currentVersionId := dvid, createdAt := now, updatedAt := now }
    rfl hmatch.symm
  simp only [List.find?_cons, hq, seedVersion, beq_self_eq_true]
  cases raw with
  | none =>
    exact ⟨_, _, rfl, rfl, rfl, rfl, rfl⟩
  | some nc =>
    dsimp only
    by_cases hne : nc = ""
    · rw [if_neg (fun h => h (by simp [hne]))]
      exact ⟨_, _, rfl, rfl, rfl, rfl, rfl⟩
    · rw [if_pos (by simpa using hne)]
      rw [updateFirst_append_of_none _ _ _ _ hfind1]
      simp only [updateFirst, hq, if_true, bumpPrompt]
      exact ⟨_, _, rfl, rfl, rfl, rfl, rfl⟩

/-! ## Claim theorems -/

/-- C4: project auto-creation from a context-detected name is idempotent:
for every store state and detected repository name, resolving the name a
second time returns the project of the first resolution and leaves the
project collection unchanged, and the first resolution added at most one
project. -/
theorem run_project_creation_idempotent_c4 :
    ∀ (projects : List Project) (repoName : String) (n1 n2 : Int)
      (id1 id2 : String),
      get_or_create_repo_project repoName n2 id2
          (get_or_create_repo_project repoName n1 id1 projects).2
        = ((get_or_create_repo_project repoName n1 id1 projects).1,
           (get_or_create_repo_project repoName n1 id1 projects).2)
      ∧ (get_or_create_repo_project repoName n1 id1 projects).2.length
        ≤ projects.length + 1 := by
  intro projects repoName n1 n2 id1 id2
  cases h : projects.find? (fun p => toLowerStr p.name == toLowerStr repoName) with
  | some e =>
    constructor
    · simp [get_or_create_repo_project, h]
    · simp [get_or_create_repo_project, h]
  | none =>
    constructor
    · simp only [get_or_create_repo_project, h]
      rw [find?_append_of_none _ _ _ h]
      simp [List.find?_cons]
    · simp [get_or_create_repo_project, h]

/-- C5: document-store load never fails: for every key it returns `none`
when the backing file is absent, when the read or the whole-file parse
fails, when the key is absent, and when deserialization of the key's
value fails; the return type is an `Option`, so no error propagates. -/
theorem store_load_never_fails_c5 :
    ∀ (T : Type) (decode : JVal → Option T) (key : String),
      load_from_store decode key .absent = none
      ∧ load_from_store decode key .readError = none
      ∧ (∀ raw, load_from_store decode key (.malformed raw) = none)
      ∧ (∀ entries, lookupEntry key entries = none →
          load_from_store decode key (.valid entries) = none)
      ∧ (∀ entries v, lookupEntry key entries = some v → decode v = none →
          load_from_store decode key (.valid entries) = none) := by
  intro T decode key
  refine ⟨rfl, rfl, fun raw => rfl, fun entries h => ?_, fun entries v h hd => ?_⟩
  · simp [load_from_store, h]
  · simp [load_from_store, h, hd]

/-- Witness for C5 at concrete inputs: key `"k"`, a decoder that always
fails, an empty mapping (key absent) and a mapping holding `"k"` (decode
fails). -/
theorem store_load_never_fails_c5_witness :
    load_from_store (fun _ => (none : Option Nat)) "k" .absent = none
    ∧ load_from_store (fun _ => (none : Option Nat)) "k" .readError = none
    ∧ load_from_store (fun _ => (none : Option Nat)) "k" (.malformed "not json") = none
    ∧ load_from_store (fun _ => (none : Option Nat)) "k" (.valid []) = none
    ∧ load_from_store (fun _ => (none : Option Nat)) "k"
        (.valid [("k", .null)]) = none := by
  obtain ⟨h1, h2, h3, h4, h5⟩ :=
    store_load_never_fails_c5 Nat (fun _ => (none : Option Nat)) "k"
  exact ⟨h1, h2, h3 "not json", h4 [] rfl, h5 [("k", .null)] .null rfl rfl⟩

/-- C6: document-store save is a per-key frame: on an existing parsed
mapping, `save` overwrites only the targeted key and every other key's
value reads back unchanged. -/
theorem store_save_frame_c6 :
    ∀ (T : Type) (encode : T → JVal) (key : String) (v : T)
      (entries : List (String × JVal)) (k' : String), k' ≠ key →
      save_to_store encode key v (.valid entries)
        = .ok (.valid (insertEntry key (encode v) entries))
      ∧ lookupEntry k' (insertEntry key (encode v) entries)
        = lookupEntry k' entries := by
  intro T encode key v entries k' h
  exact ⟨rfl, lookupEntry_insertEntry_ne k' key (encode v) entries h⟩

/-- Witness for C6 at concrete inputs: saving key `"b"` leaves the value
under key `"a"` unchanged. -/
theorem store_save_frame_c6_witness :
    save_to_store (fun n => JVal.num n) "b" (5 : Int)
        (.valid [("a", .str "keep")])
      = .ok (.valid (insertEntry "b" (JVal.num 5) [("a", .str "keep")]))
    ∧ lookupEntry "a" (insertEntry "b" (JVal.num 5) [("a", .str "keep")])
      = lookupEntry "a" [("a", .str "keep")] :=
  store_save_frame_c6 Int (fun n => JVal.num n) "b" 5
    [("a", .str "keep")] "a" (by decide)

/-- C7: the export command fails with exit code 1 and the
`"Run ID not found"` stderr line exactly when a run id is supplied and no
stored run has that id, and with the `"No evaluation runs found"` line
exactly when no id is supplied and no completed run is stored; in every
other case it exits 0 with no stderr line.  (The source prefixes both
lines with `"Error: "`.) -/
theorem export_error_cases_c7 :
    (∀ (id : String) (runs : List EvaluationRun),
        runs.find? (fun r => r.id == id) = none →
        handle_export_command (some id) runs
          = (1, some "Error: Run ID not found"))
    ∧ (∀ runs : List EvaluationRun,
        runs.filter (fun r => r.status == "completed") = [] →
        handle_export_command none runs
          = (1, some "Error: No evaluation runs found"))
    ∧ (∀ (id : String) (runs : List EvaluationRun) (r : EvaluationRun),
        runs.find? (fun r => r.id == id) = some r →
        handle_export_command (some id) runs = (0, none))
    ∧ (∀ runs : List EvaluationRun,
        runs.filter (fun r => r.status == "completed") ≠ [] →
        handle_export_command none runs = (0, none)) := by
  refine ⟨fun id runs h => ?_, fun runs h => ?_, fun id runs r h => ?_,
    fun runs h => ?_⟩
  · simp [handle_export_command, selectExportRun, h]
  · simp [handle_export_command, selectExportRun, h, maxByCreatedAt]
  · simp [handle_export_command, selectExportRun, h]
  · have hs := maxByCreatedAt_isSome h
    obtain ⟨m, hm⟩ := Option.isSome_iff_exists.mp hs
    simp [handle_export_command, selectExportRun, hm]

/-- Witness for C7 at concrete inputs: an unknown run id over an empty
store, an empty store with no id, a known run id, and a stored completed
run with no id. -/
theorem export_error_cases_c7_witness :
    handle_export_command (some "x") [] = (1, some "Error: Run ID not found")
    ∧ handle_export_command none [wRunPending]
      = (1, some "Error: No evaluation runs found")
    ∧ handle_export_command (some "r1") [wRunCompleted] = (0, none)
    ∧ handle_export_command none [wRunCompleted] = (0, none) := by
  obtain ⟨h1, h2, h3, h4⟩ := export_error_cases_c7
  exact ⟨h1 "x" [] rfl, h2 [wRunPending] rfl,
    h3 "r1" [wRunCompleted] wRunCompleted rfl,
    h4 [wRunCompleted] (fun hc => by simp [wRunCompleted] at hc)⟩

/-- C9 (code bug): display truncation is not total.  The source compares
byte lengths and byte-slices at `max_len - 3`: on the five-character
string `"ééééé"` (ten UTF-8 bytes) with column width 8 the slice index 5
falls inside the third character and the code panics (modelled as
`none`), and on `"abc"` with width 2 the subtraction `max_len - 3`
underflows and panics; the claim says truncation returns without
panicking for every string and width. -/
theorem truncate_string_panics_c9 :
    truncate_string ['é', 'é', 'é', 'é', 'é'] 8 = none
    ∧ truncate_string ['a', 'b', 'c'] 2 = none
    ∧ truncate_string ['a', 'b', 'c'] 3 = some ['a', 'b', 'c']
    ∧ truncate_string ['h', 'e', 'l', 'l', 'o', '!'] 5
      = some ['h', 'e', '.', '.', '.'] := by
  refine ⟨?_, ?_, ?_, ?_⟩ <;> decide

/-- C10: when export is invoked without a run id, the selected run is
stored, has status exactly `"completed"`, and its `createdAt` is maximal
among the stored completed runs; a run with any other status is never
selected. -/
theorem export_default_latest_completed_c10 :
    ∀ (runs : List EvaluationRun) (r : EvaluationRun),
      selectExportRun none runs = some r →
      r ∈ runs ∧ r.status = "completed"
      ∧ ∀ x ∈ runs, x.status = "completed" → x.createdAt ≤ r.createdAt := by
  intro runs r h
  simp only [selectExportRun] at h
  have hmem := maxByCreatedAt_mem h
  have hr := List.mem_filter.mp hmem
  refine ⟨hr.1, by simpa using hr.2, fun x hx hxc => ?_⟩
  exact maxByCreatedAt_ge h x
    (List.mem_filter.mpr ⟨hx, by simp [hxc]⟩)

/-- Witness for C10 at a concrete store: among a completed run and a
later pending run, the default export selects the completed one. -/
theorem export_default_latest_completed_c10_witness :
    wRunCompleted ∈ [wRunPending, wRunCompleted]
    ∧ wRunCompleted.status = "completed"
    ∧ ∀ x ∈ [wRunPending, wRunCompleted], x.status = "completed" →
        x.createdAt ≤ wRunCompleted.createdAt :=
  export_default_latest_completed_c10 [wRunPending, wRunCompleted]
    wRunCompleted rfl

/-- C8: dataset resolution: the `no-dataset` flag yields no dataset
unconditionally — both at the resolution step for every explicit name and
project, and in every assembled run configuration — and an explicit
dataset name whose scoped case-insensitive lookup misses yields no
dataset rather than an error. -/
theorem run_dataset_resolution_c8 :
    (∀ (dsName : Option String) (project : Option Project)
        (dataSets : List DataSet),
        resolveDataset true dsName project dataSets = none)
    ∧ (∀ (inputs : RunInputs) (env : Env) (st : Store) (cfg : RunConfig),
        inputs.noDataset = true →
        (handle_run_command inputs env st).config = some cfg →
        cfg.dataset = none)
    ∧ (∀ (dsName : String) (project : Option Project)
        (dataSets : List DataSet),
        findDatasetByName dsName project dataSets = none →
        resolveDataset false (some dsName) project dataSets = none) := by
  refine ⟨fun dsName project dataSets => by simp [resolveDataset],
    fun inputs env st cfg hnd hc => ?_,
    fun dsName project dataSets h => by simp [resolveDataset, h]⟩
  simp only [handle_run_command] at hc
  split at hc
  · simp at hc
  · split at hc
    · split at hc
      · simp at hc
      · simp only [finishRun] at hc
        injection hc with hc
        subst hc
        simp [resolveDataset, hnd]
    · split at hc
      · simp only [finishRun] at hc
        injection hc with hc
        subst hc
        simp [resolveDataset, hnd]
      · simp at hc

/-- C3 (Scenario A): on an empty store with no project filter, context
detection `"myrepo"` and run text `"hello"`, the run command exits 0,
creates the Project `myrepo`, creates the Prompt `myrepo` with version 1
of empty content, appends version 2 with content `"hello"` and makes it
current, and assembles a config with `savedVersion = true`, the built-in
default model pair, and no dataset. -/
theorem run_scenario_a_c3 :
    (handle_run_command scenarioAInputs scenarioAEnv emptyStore).exitCode = 0
    ∧ (handle_run_command scenarioAInputs scenarioAEnv
        emptyStore).store.projects.map (fun p => p.name) = ["myrepo"]
    ∧ (handle_run_command scenarioAInputs scenarioAEnv
        emptyStore).store.prompts.map
        (fun p => (p.name, p.currentVersionId,
          p.versions.map (fun v => (v.versionNumber, v.content))))
      = [("myrepo", scenarioAEnv.newVersionId, [(1, ""), (2, "hello")])]
    ∧ (handle_run_command scenarioAInputs scenarioAEnv emptyStore).config.map
        (fun c => (c.savedVersion, c.models, c.dataset))
      = some (true, defaultModels, none) :=
  ⟨rfl, rfl, rfl, rfl⟩

/-- Witness for C8 at concrete inputs: the flag suppresses an explicit
name, a run with the flag set assembles a config without a dataset, and
a lookup miss without the flag yields no dataset. -/
theorem run_dataset_resolution_c8_witness :
    resolveDataset true (some "d") none [] = none
    ∧ ((handle_run_command w8Inputs cxEnv emptyStore).config = some w8Config
        ∧ w8Config.dataset = none)
    ∧ resolveDataset false (some "d") none [] = none := by
  obtain ⟨h1, h2, h3⟩ := run_dataset_resolution_c8
  exact ⟨h1 (some "d") none [],
    ⟨rfl, h2 w8Inputs cxEnv emptyStore w8Config rfl rfl⟩,
    h3 "d" none [] rfl⟩

/-- C1: when the effective prompt name resolves to an existing prompt
with a valid current version: submitted text differing from the current
content appends exactly one new version — with number
`max existing + 1`, the new text as content, the supplied note, made
current, the prompt's `updatedAt` bumped — and the config records
`savedVersion = true` with the new version id; submitted text equal to
the current content, or no submitted text, leaves the prompt collection
unchanged and reuses the current version with `savedVersion = false`. -/
theorem run_version_bump_c1
    (inputs : RunInputs) (env : Env) (st : Store)
    (project : Option Project) (st1 : Store) (name : String)
    (p : Prompt) (cv : PromptVersion)
    (hproj : resolveProject inputs.projectFilter env.detectedRepo env.now
      env.projId st = .ok (project, st1))
    (hname : effectiveName inputs.promptName project = some name)
    (hfind : st1.prompts.find? (promptMatches project name) = some p)
    (hcv : p.versions.find? (fun v => v.id == p.currentVersionId) = some cv) :
    (∀ nc, rawTextOf inputs.promptText env.stdinPiped = some nc →
      nc ≠ cv.content →
      (handle_run_command inputs env st).store.prompts
        = updateFirst (promptMatches project name)
            (bumpPrompt (newVersionOf env.newVersionId
                (maxVersionNumber p.versions + 1) nc inputs.versionNote
                env.now) env.newVersionId env.now)
            st1.prompts
      ∧ totalVersions (handle_run_command inputs env st).store.prompts
        = totalVersions st1.prompts + 1
      ∧ (handle_run_command inputs env st).config.map
          (fun c => (c.savedVersion, c.prompt, c.promptVersionId))
        = some (true, nc, some env.newVersionId))
    ∧ (∀ nc, rawTextOf inputs.promptText env.stdinPiped = some nc →
      nc = cv.content →
      (handle_run_command inputs env st).store.prompts = st1.prompts
      ∧ (handle_run_command inputs env st).config.map
          (fun c => (c.savedVersion, c.prompt, c.promptVersionId))
        = some (false, cv.content, some cv.id))
    ∧ (rawTextOf inputs.promptText env.stdinPiped = none →
      (handle_run_command inputs env st).store.prompts = st1.prompts
      ∧ (handle_run_command inputs env st).config.map
          (fun c => (c.savedVersion, c.prompt, c.promptVersionId))
        = some (false, cv.content, some cv.id)) := by
  have hany := any_of_find?_some hfind
  refine ⟨fun nc hraw hne => ?_, fun nc hraw heq => ?_, fun hraw => ?_⟩
  · simp only [handle_run_command, hproj, hname, hraw,
      resolveNamedPrompt, hany, Bool.not_true, Bool.false_eq_true,
      if_false, hfind, hcv]
    rw [if_pos hne]
    dsimp only
    refine ⟨finishRun_store_prompts .., ?_, finishRun_config ..⟩
    rw [finishRun_store_prompts]
    exact totalVersions_updateFirst hfind (fun y => by simp [bumpPrompt])
  · have hne' : ¬(nc ≠ cv.content) := fun h => h heq
    simp only [handle_run_command, hproj, hname, hraw,
      resolveNamedPrompt, hany, Bool.not_true, Bool.false_eq_true,
      if_false, hfind, hcv]
    rw [if_neg hne']
    dsimp only
    exact ⟨finishRun_store_prompts .., finishRun_config ..⟩
  · simp only [handle_run_command, hproj, hname, hraw,
      resolveNamedPrompt, hany, Bool.not_true, Bool.false_eq_true,
      if_false, hfind, hcv]
    exact ⟨finishRun_store_prompts .., finishRun_config ..⟩

/-- Witness for C1 at a concrete store: submitting `"new"` against the
prompt `"p"` whose current content is `"old"` saves one new version and
records it in the config. -/
theorem run_version_bump_c1_witness :
    (handle_run_command w1Inputs w1Env w1Store).config.map
        (fun c => (c.savedVersion, c.prompt, c.promptVersionId))
      = some (true, "new", some "v2")
    ∧ totalVersions (handle_run_command w1Inputs w1Env w1Store).store.prompts
      = totalVersions w1Store.prompts + 1 := by
  obtain ⟨hA, _, _⟩ := run_version_bump_c1 w1Inputs w1Env w1Store none
    w1Store "p" w1Prompt w1Version rfl rfl rfl rfl
  obtain ⟨h1, h2, h3⟩ := hA "new" rfl (by decide)
  exact ⟨h3, h2⟩

/-- C2 counterexample: a store whose project `proj` owns one prompt named
`other`.  The effective name `proj` matches no prompt of the project
case-insensitively, a Project is resolved, yet the run fails with the
prompt-not-found error and creates nothing — the creation helper returns
the project's existing prompt (matched by project id only) without
creating one named `proj`, so the claim's auto-creation and its
"PromptNotFound only without a Project" condition are both false. -/
theorem run_default_prompt_c2_counterexample :
    (handle_run_command cxInputs cxEnv cxStore).exitCode = 1
    ∧ (handle_run_command cxInputs cxEnv cxStore).stderr
      = some (promptNotFoundMsg "proj")
    ∧ (handle_run_command cxInputs cxEnv cxStore).store.prompts.map
        (fun p => p.name) = ["other"]
    ∧ cxStore.projects.map (fun p => p.name) = ["proj"] :=
  ⟨rfl, rfl, rfl, rfl⟩

/-- C2 as amended: the default prompt is auto-created only when the
resolved Project owns no prompts at all and the effective name matches
the project's name case-insensitively; then exactly one prompt is
appended — named after the project, owned by it, carrying the drawn id
and the seed version (empty content, number 1, note "Initial version") —
the prompt id is appended to the project's prompt-id list, and the run
proceeds without failing. -/
theorem run_default_prompt_creation_c2_amended
    (inputs : RunInputs) (env : Env) (st : Store)
    (proj : Project) (st1 : Store) (name : String)
    (hproj : resolveProject inputs.projectFilter env.detectedRepo env.now
      env.projId st = .ok (some proj, st1))
    (hname : effectiveName inputs.promptName (some proj) = some name)
    (hmatch : toLowerStr name = toLowerStr proj.name)
    (hnone : st1.prompts.find? (fun p => p.projectId == proj.id) = none) :
    (handle_run_command inputs env st).exitCode = 0
    ∧ (handle_run_command inputs env st).stderr = none
    ∧ (∃ q, (handle_run_command inputs env st).store.prompts
        = st1.prompts ++ [q]
        ∧ q.id = env.defPromptId ∧ q.projectId = proj.id ∧ q.name = proj.name
        ∧ q.versions.head? = some (seedVersion env.defVersionId env.now))
    ∧ (handle_run_command inputs env st).store.projects
      = updateFirst (fun p => p.id == proj.id)
          (fun p =>
            { p with
              promptIds := proj.promptIds ++ [env.defPromptId],
              updatedAt := env.now })
          st1.projects := by
  obtain ⟨q, pr, heq, hq1, hq2, hq3, hq4⟩ := resolveNamedPrompt_creates name
    (rawTextOf inputs.promptText env.stdinPiped) inputs.versionNote env.now
    env.defPromptId env.defVersionId env.newVersionId proj st1 hmatch hnone
  simp only [handle_run_command, hproj, hname, heq]
  refine ⟨rfl, rfl, ⟨q, ?_, hq1, hq2, hq3, hq4⟩, ?_⟩
  · rw [finishRun_store_prompts]
  · rw [finishRun_store_projects]

/-- Witness for the amended C2 at a concrete store: a project `alpha`
owning no prompts gets its default prompt created and the run exits 0. -/
theorem run_default_prompt_creation_c2_amended_witness :
    (handle_run_command w2Inputs cxEnv w2Store).exitCode = 0
    ∧ (handle_run_command w2Inputs cxEnv w2Store).store.prompts.length
      = 1 := by
  obtain ⟨h0, h1, ⟨q, hq, _, _, _, _⟩, h2⟩ :=
    run_default_prompt_creation_c2_amended w2Inputs cxEnv w2Store w2Project
      w2Store "alpha" rfl rfl rfl rfl
  refine ⟨h0, ?_⟩
  rw [hq]
  simp [w2Store]

end Evvl
